import Mathlib

/-!
Shallow embedding of the Paint Touch Tracker backend
(src/Documents/Project/Tracker/backend/main.py): a small sync API over two
SQLite tables, `games` and `possessions`, each keyed by a client-generated
`client_id` with a UNIQUE constraint (see `init_db`).

Modelling conventions:
* The persistent store is a `DB` value: the two tables as lists of rows in
  insertion order, plus the AUTOINCREMENT counters (SQLite starts them at 1).
* Each endpoint returns `DB × Except ApiError α`: the `DB` component is the
  state actually committed (the `with get_conn()` block commits on normal
  return and rolls the connection's writes back on an exception, so on an
  error the returned state drops that connection's writes).
* `datetime.utcnow()` is modelled by an explicit `now : Nat` argument; only
  its relative order matters to the spec, never its text.
* `paint_touch` is stored as INTEGER 0/1 but every write goes through
  `1 if possession.paint_touch else 0` and every read through Python
  truthiness, so it is modelled as `Bool`.
-/

/-- Request body for POST /games (pydantic model `GameIn`);
`opponent` is `Optional[str] = ""`. -/
structure GameIn where
  client_id : String
  name : String
  opponent : Option String
  game_date : String
  deriving DecidableEq, Repr

/-- Request body element for POST /games/.../possessions (pydantic model
`PossessionIn`); `points` is `Optional[int] = None`, `notes` is
`Optional[str] = ""`. -/
structure PossessionIn where
  client_id : String
  number : Int
  quarter : Int
  paint_touch : Bool
  outcome : String
  points : Option Int
  notes : Option String
  timestamp : String
  deriving DecidableEq, Repr

/-- Request body for POST /sync (pydantic model `SyncPayload`). -/
structure SyncPayload where
  game : GameIn
  possessions : List PossessionIn
  deriving DecidableEq, Repr

/-- A row of the `games` table (schema in `init_db`). -/
structure GameRow where
  id : Nat
  client_id : String
  name : String
  opponent : Option String
  game_date : String
  created_at : Nat
  deriving DecidableEq, Repr

/-- A row of the `possessions` table (schema in `init_db`). -/
structure PossessionRow where
  id : Nat
  client_id : String
  game_id : Nat
  number : Int
  quarter : Int
  paint_touch : Bool
  outcome : String
  points : Option Int
  notes : Option String
  timestamp : String
  deriving DecidableEq, Repr

/-- The embedded store: both tables plus the AUTOINCREMENT counters. -/
structure DB where
  games : List GameRow
  possessions : List PossessionRow
  next_game_id : Nat
  next_possession_id : Nat
  deriving DecidableEq, Repr

/-- The store of a fresh deployment, right after `init_db`. -/
def emptyDB : DB :=
  { games := [], possessions := [], next_game_id := 1, next_possession_id := 1 }

/-- Errors an endpoint can surface: `notFound` is the explicit
`HTTPException(status_code=404, ...)`; `integrityError` is an uncaught
`sqlite3.IntegrityError` from a UNIQUE-constraint rejection; `storageError`
is any other uncaught storage-engine exception (disk, corruption). -/
inductive ApiError where
  | notFound (detail : String)
  | integrityError
  | storageError
  deriving DecidableEq, Repr

/-- Does a `games` row with this `client_id` exist (the UNIQUE constraint
on `games.client_id` from `init_db`)? -/
def gameClientIdStored (db : DB) (cid : String) : Bool :=
  db.games.any (fun g => g.client_id == cid)

/-- Does a `possessions` row with this `client_id` exist (the UNIQUE
constraint on `possessions.client_id` from `init_db`)? -/
def possessionClientIdStored (db : DB) (cid : String) : Bool :=
  db.possessions.any (fun p => p.client_id == cid)

/-- Plain `INSERT INTO games ...` honouring the UNIQUE(client_id) constraint:
rejects with `IntegrityError` when a row with this `client_id` exists,
otherwise appends the row with the AUTOINCREMENT id and `created_at = now`,
returning `last_insert_rowid()`. -/
def insertGameRow (game : GameIn) (now : Nat) (db : DB) :
    DB × Except ApiError Nat :=
  if gameClientIdStored db game.client_id then
    (db, .error .integrityError)
  else
    let id := db.next_game_id
    ({ db with
        games := db.games ++
          [{ id := id, client_id := game.client_id, name := game.name,
             opponent := game.opponent, game_date := game.game_date,
             created_at := now }],
        next_game_id := id + 1 },
     .ok id)

/-- The two store operations of `create_game` with the interleaving point
between them explicit: the `SELECT id FROM games WHERE client_id = ?` runs
against `dbSelect`, the `INSERT` against `dbInsert`.  A concurrent request
committing between the two steps is modelled by `dbSelect ≠ dbInsert`; the
sequential endpoint is the special case `dbSelect = dbInsert`.  The code has
no try/except around the INSERT, so a constraint rejection propagates. -/
def create_game_conn (game : GameIn) (now : Nat) (dbSelect dbInsert : DB) :
    DB × Except ApiError (Nat × Bool) :=
  match dbSelect.games.find? (fun g => g.client_id == game.client_id) with
  | some g => (dbInsert, .ok (g.id, false))
  | none =>
      match insertGameRow game now dbInsert with
      | (db', .ok id) => (db', .ok (id, true))
      | (db', .error e) => (db', .error e)

/-- POST /games (`create_game`): look up by `client_id`; if found return the
existing id with `created = false`, else insert and return the new id with
`created = true`. -/
def create_game (game : GameIn) (now : Nat) (db : DB) :
    DB × Except ApiError (Nat × Bool) :=
  create_game_conn game now db db

/-- `INSERT OR IGNORE INTO possessions ...`: if a row with this `client_id`
exists the statement is ignored (`cursor.rowcount = 0`), else the row is
appended (`cursor.rowcount = 1`). -/
def insertOrIgnorePossession (p : PossessionIn) (gid : Nat) (db : DB) :
    DB × Bool :=
  if possessionClientIdStored db p.client_id then
    (db, false)
  else
    ({ db with
        possessions := db.possessions ++
          [{ id := db.next_possession_id, client_id := p.client_id,
             game_id := gid, number := p.number, quarter := p.quarter,
             paint_touch := p.paint_touch, outcome := p.outcome,
             points := p.points, notes := p.notes,
             timestamp := p.timestamp }],
        next_possession_id := db.next_possession_id + 1 },
     true)

/-- The `for possession in possessions` loop of `add_possessions`:
`inserted` counts the statements whose `cursor.rowcount` was nonzero. -/
def insertLoop (gid : Nat) (db : DB) (inserted : Nat) :
    List PossessionIn → DB × Nat
  | [] => (db, inserted)
  | p :: rest =>
      let r := insertOrIgnorePossession p gid db
      insertLoop gid r.1 (if r.2 then inserted + 1 else inserted) rest

/-- POST /games/.../possessions (`add_possessions`): empty input returns
`inserted = 0` before any lookup; otherwise a missing game raises 404, else
the insert loop runs and the count of newly inserted rows is returned. -/
def add_possessions (gid : Nat) (possessions : List PossessionIn) (db : DB) :
    DB × Except ApiError Nat :=
  if possessions.isEmpty then
    (db, .ok 0)
  else if db.games.any (fun g => g.id == gid) then
    let r := insertLoop gid db 0 possessions
    (r.1, .ok r.2)
  else
    (db, .error (.notFound "Game not found"))

/-- POST /sync (`sync`): `create_game` on the payload's game, then
`add_possessions` on the resulting id; an exception in either step
propagates, keeping the state already committed by the earlier step. -/
def sync (payload : SyncPayload) (now : Nat) (db : DB) :
    DB × Except ApiError (Nat × Bool × Nat) :=
  match create_game payload.game now db with
  | (db1, .error e) => (db1, .error e)
  | (db1, .ok (gid, created)) =>
      match add_possessions gid payload.possessions db1 with
      | (db2, .error e) => (db2, .error e)
      | (db2, .ok n) => (db2, .ok (gid, created, n))

/-- The possession-insert step of `sync` when the storage engine fails
partway (spec taxonomy: storage-engine errors such as disk or corruption are
fatal and propagate).  The failing connection commits nothing: its writes
roll back, so the state returned is the input state. -/
def add_possessions_engine_failure (_gid : Nat) (_possessions : List PossessionIn)
    (db : DB) : DB × Except ApiError Nat :=
  (db, .error .storageError)

/-- `sync` on an execution where the storage engine fails during the
possession-insert step, after `create_game` has already committed. -/
def sync_engine_failure (payload : SyncPayload) (now : Nat) (db : DB) :
    DB × Except ApiError (Nat × Bool × Nat) :=
  match create_game payload.game now db with
  | (db1, .error e) => (db1, .error e)
  | (db1, .ok (gid, created)) =>
      match add_possessions_engine_failure gid payload.possessions db1 with
      | (db2, .error e) => (db2, .error e)
      | (db2, .ok n) => (db2, .ok (gid, created, n))

/-- GET /games (`list_games`): `SELECT * FROM games ORDER BY created_at
DESC`. -/
def list_games (db : DB) : List GameRow :=
  List.insertionSort (fun a b => b.created_at ≤ a.created_at) db.games

/-- One CSV data row of `export_csv`: `paint_touch` as literal `yes`/`no`,
`points` empty when NULL, `notes` through Python `or ""` (NULL and the empty
string both render empty). -/
def renderPossessionRow (p : PossessionRow) : List String :=
  [toString p.number, toString p.quarter,
   if p.paint_touch then "yes" else "no",
   (match p.points with | some n => toString n | none => ""),
   p.outcome,
   (match p.notes with | some s => s | none => ""),
   p.timestamp]

/-- The CSV header cells written by `export_csv`. -/
def csvHeader : List String :=
  ["possession_number", "quarter", "paint_touch", "points", "outcome",
   "notes", "timestamp"]

/-- GET /games/.../possessions.csv (`export_csv`): 404 when the game does
not exist; otherwise the header row followed by one rendered row per
possession of the game, `ORDER BY number ASC`, plus the suggested filename
(name with spaces replaced by underscores, then the game date). -/
def export_csv (gid : Nat) (db : DB) :
    Except ApiError (List (List String) × String) :=
  match db.games.find? (fun g => g.id == gid) with
  | none => .error (.notFound "Game not found")
  | some g =>
      let rows := List.insertionSort (fun a b => a.number ≤ b.number)
        (db.possessions.filter (fun p => p.game_id == gid))
      .ok (csvHeader :: rows.map renderPossessionRow,
        (g.name.replace " " "_") ++ "_" ++ g.game_date ++ ".csv")

/-- The data columns of a stored possession row: everything except the
server-assigned AUTOINCREMENT id, in table order. -/
def possessionData (r : PossessionRow) :
    String × Nat × Int × Int × Bool × String × Option Int × Option String ×
      String :=
  (r.client_id, r.game_id, r.number, r.quarter, r.paint_touch, r.outcome,
   r.points, r.notes, r.timestamp)

/-- The columns the INSERT of `add_possessions` writes for input `p`
against game `gid`. -/
def inputData (p : PossessionIn) (gid : Nat) :
    String × Nat × Int × Int × Bool × String × Option Int × Option String ×
      String :=
  (p.client_id, gid, p.number, p.quarter, p.paint_touch, p.outcome,
   p.points, p.notes, p.timestamp)

/-- The entries of an input list whose `client_id` was not yet stored at the
moment the loop of `add_possessions` processes them: an entry is kept when
its `client_id` neither satisfies `stored` nor occurred earlier in the
list.  These are exactly the rows the loop inserts. -/
def freshFirsts (stored : String → Bool) : List PossessionIn → List PossessionIn
  | [] => []
  | p :: rest =>
      if stored p.client_id then freshFirsts stored rest
      else p :: freshFirsts (fun c => stored c || c == p.client_id) rest

/-! ### Concrete fixtures (the spec's concrete scenario and small stores) -/

/-- The game payload of the spec's concrete sync scenario. -/
def g1 : GameIn :=
  { client_id := "g1", name := "Home Opener", opponent := some "Rivals",
    game_date := "2024-01-10" }

/-- The possession payload of the spec's concrete sync scenario. -/
def p1 : PossessionIn :=
  { client_id := "p1", number := 1, quarter := 1, paint_touch := true,
    outcome := "make", points := some 2, notes := some "", timestamp := "t1" }

/-- The sync payload of the spec's concrete scenario. -/
def syncPayload1 : SyncPayload := { game := g1, possessions := [p1] }

/-- The games row the scenario's first upsert creates at time 0. -/
def gRow1 : GameRow :=
  { id := 1, client_id := "g1", name := "Home Opener",
    opponent := some "Rivals", game_date := "2024-01-10", created_at := 0 }

/-- A store holding one game (id 1) and no possessions. -/
def dbOneGame : DB :=
  { games := [gRow1], possessions := [], next_game_id := 2,
    next_possession_id := 1 }

/-- Possession inputs A, B, C with pairwise distinct client ids. -/
def pA : PossessionIn :=
  { client_id := "A", number := 1, quarter := 1, paint_touch := true,
    outcome := "make", points := some 2, notes := some "", timestamp := "tA" }

/-- See `pA`. -/
def pB : PossessionIn :=
  { client_id := "B", number := 2, quarter := 1, paint_touch := false,
    outcome := "miss", points := none, notes := none, timestamp := "tB" }

/-- See `pA`. -/
def pC : PossessionIn :=
  { client_id := "C", number := 3, quarter := 2, paint_touch := true,
    outcome := "turnover", points := none, notes := some "fast break",
    timestamp := "tC" }

/-- Two inputs sharing a client id, with different data columns. -/
def pDup1 : PossessionIn :=
  { client_id := "dup", number := 7, quarter := 3, paint_touch := true,
    outcome := "make", points := some 3, notes := some "", timestamp := "t7" }

/-- See `pDup1`. -/
def pDup2 : PossessionIn :=
  { client_id := "dup", number := 8, quarter := 3, paint_touch := false,
    outcome := "miss", points := none, notes := some "", timestamp := "t8" }

/-- The store after inserting possessions A and B for game 1. -/
def dbAB : DB := (add_possessions 1 [pA, pB] dbOneGame).1

/-- A store whose possessions for game 1 were inserted out of sequence
order (number 2 before number 1). -/
def dbCsv : DB := (add_possessions 1 [pB, pA] dbOneGame).1

/-- The store after syncing the scenario payload on a fresh store at time
`now`: one game row and one possession row. -/
def dbScenario (now : Nat) : DB :=
  { games := [{ id := 1, client_id := "g1", name := "Home Opener",
                opponent := some "Rivals", game_date := "2024-01-10",
                created_at := now }],
    possessions := [{ id := 1, client_id := "p1", game_id := 1,
                      number := 1, quarter := 1, paint_touch := true,
                      outcome := "make", points := some 2, notes := some "",
                      timestamp := "t1" }],
    next_game_id := 2, next_possession_id := 2 }

/-- The games row `insertGameRow` appends for `game` at time `now`. -/
def appendedGameRow (game : GameIn) (now : Nat) (db : DB) : GameRow :=
  { id := db.next_game_id, client_id := game.client_id, name := game.name,
    opponent := game.opponent, game_date := game.game_date,
    created_at := now }

/-- The store after the scenario's first create_game on a fresh store. -/
def dbSyncGame : DB := (create_game g1 0 emptyDB).1

/-- The store after the scenario's first full sync on a fresh store. -/
def dbSyncFull : DB := (sync syncPayload1 0 emptyDB).1

/-- The ORDER BY number ASC relation of `export_csv` is decidable. -/
instance : DecidableRel (fun (a b : PossessionRow) => a.number ≤ b.number) :=
  fun a b => Int.decLe a.number b.number

instance : IsTotal PossessionRow (fun a b => a.number ≤ b.number) :=
  ⟨fun a b => Int.le_total a.number b.number⟩

instance : IsTrans PossessionRow (fun a b => a.number ≤ b.number) :=
  ⟨fun _ _ _ hab hbc => le_trans hab hbc⟩

/-- The ORDER BY created_at DESC relation of `list_games` is decidable. -/
instance : DecidableRel (fun (a b : GameRow) => b.created_at ≤ a.created_at) :=
  fun a b => Nat.decLe b.created_at a.created_at

instance : IsTotal GameRow (fun a b => b.created_at ≤ a.created_at) :=
  ⟨fun a b => Nat.le_total b.created_at a.created_at⟩

instance : IsTrans GameRow (fun a b => b.created_at ≤ a.created_at) :=
  ⟨fun _ _ _ hab hbc => le_trans hbc hab⟩

/-! ### Helper lemmas about the store operations -/

theorem gameClientIdStored_eq_false (db : DB) (cid : String)
    (h : ∀ g ∈ db.games, g.client_id ≠ cid) :
    gameClientIdStored db cid = false := by
  simp only [gameClientIdStored, List.any_eq_false, beq_iff_eq]
  exact h

theorem games_find?_eq_none (db : DB) (cid : String)
    (h : ∀ g ∈ db.games, g.client_id ≠ cid) :
    db.games.find? (fun g => g.client_id == cid) = none := by
  rw [List.find?_eq_none]
  intro g hg
  simpa using h g hg

/-- C1: calling `create_game` twice with the same payload (its `client_id`
not yet stored) returns the same game id both times, `created = true` on the
first call and `created = false` on the second; the first call appends
exactly one row and the second call leaves the store unchanged. -/
theorem create_game_idempotent (game : GameIn) (now now2 : Nat) (db : DB)
    (h : ∀ g ∈ db.games, g.client_id ≠ game.client_id) :
    ∃ db' : DB,
      create_game game now db = (db', .ok (db.next_game_id, true)) ∧
      create_game game now2 db' = (db', .ok (db.next_game_id, false)) ∧
      db'.games = db.games ++
        [{ id := db.next_game_id, client_id := game.client_id,
           name := game.name, opponent := game.opponent,
           game_date := game.game_date, created_at := now }] := by
  have hfind := games_find?_eq_none db game.client_id h
  have hstored := gameClientIdStored_eq_false db game.client_id h
  refine ⟨?_, ?_, ?_, ?_⟩
  · exact { db with
      games := db.games ++
        [{ id := db.next_game_id, client_id := game.client_id,
           name := game.name, opponent := game.opponent,
           game_date := game.game_date, created_at := now }],
      next_game_id := db.next_game_id + 1 }
  · unfold create_game create_game_conn insertGameRow
    rw [hfind, hstored]
    rfl
  · unfold create_game create_game_conn
    rw [List.find?_append, hfind]
    simp [List.find?]
  · rfl

theorem beq_string_comm (a b : String) : (a == b) = (b == a) := by
  cases h1 : a == b
  · cases h2 : b == a
    · rfl
    · simp_all
  · simp_all

theorem possessionClientIdStored_append (db db' : DB)
    (rs : List PossessionRow) (h : db'.possessions = db.possessions ++ rs)
    (c : String) :
    possessionClientIdStored db' c =
      (possessionClientIdStored db c || rs.any (fun r => r.client_id == c)) := by
  simp [possessionClientIdStored, h, List.any_append]

theorem insertOrIgnorePossession_of_stored (p : PossessionIn) (gid : Nat)
    (db : DB) (h : possessionClientIdStored db p.client_id = true) :
    insertOrIgnorePossession p gid db = (db, false) := by
  unfold insertOrIgnorePossession
  rw [h]
  rfl

theorem insertOrIgnorePossession_of_fresh (p : PossessionIn) (gid : Nat)
    (db : DB) (h : possessionClientIdStored db p.client_id = false) :
    insertOrIgnorePossession p gid db =
      ({ db with
          possessions := db.possessions ++
            [{ id := db.next_possession_id, client_id := p.client_id,
               game_id := gid, number := p.number, quarter := p.quarter,
               paint_touch := p.paint_touch, outcome := p.outcome,
               points := p.points, notes := p.notes,
               timestamp := p.timestamp }],
          next_possession_id := db.next_possession_id + 1 },
       true) := by
  unfold insertOrIgnorePossession
  rw [h]
  rfl

theorem stored_after_insert (p : PossessionIn) (gid : Nat) (db : DB)
    (h : possessionClientIdStored db p.client_id = false) (c : String) :
    possessionClientIdStored (insertOrIgnorePossession p gid db).1 c =
      (possessionClientIdStored db c || c == p.client_id) := by
  rw [insertOrIgnorePossession_of_fresh p gid db h]
  simp [possessionClientIdStored, List.any_append, beq_string_comm]

theorem freshFirsts_congr {f g : String → Bool} (h : ∀ x, f x = g x) :
    ∀ l : List PossessionIn, freshFirsts f l = freshFirsts g l
  | [] => rfl
  | p :: rest => by
      rw [freshFirsts, freshFirsts, h p.client_id]
      cases hg : g p.client_id
      · simp only [Bool.false_eq_true, if_false]
        exact congrArg (List.cons p)
          (freshFirsts_congr (fun x => by rw [h x]) rest)
      · simp only [if_true]
        exact freshFirsts_congr h rest

theorem freshFirsts_not_stored (l : List PossessionIn) :
    ∀ (stored : String → Bool) (q : PossessionIn),
      q ∈ freshFirsts stored l → stored q.client_id = false := by
  induction l with
  | nil => intro stored q hq; simp [freshFirsts] at hq
  | cons p rest ih =>
      intro stored q hq
      rw [freshFirsts] at hq
      cases hp : stored p.client_id
      · rw [hp] at hq
        simp only [Bool.false_eq_true, if_false, List.mem_cons] at hq
        cases hq with
        | inl h => rw [h]; exact hp
        | inr h =>
            have h2 := ih (fun c => stored c || c == p.client_id) q h
            simp only [Bool.or_eq_false_iff] at h2
            exact h2.1
      · rw [hp] at hq
        simp only [if_true] at hq
        exact ih stored q hq

theorem freshFirsts_cids_nodup (l : List PossessionIn) :
    ∀ stored : String → Bool,
      ((freshFirsts stored l).map (fun p => p.client_id)).Nodup := by
  induction l with
  | nil => intro stored; simp [freshFirsts]
  | cons p rest ih =>
      intro stored
      rw [freshFirsts]
      cases hp : stored p.client_id
      · simp only [Bool.false_eq_true, if_false, List.map_cons,
          List.nodup_cons]
        constructor
        · intro hmem
          rcases List.mem_map.mp hmem with ⟨q, hq, hcid⟩
          have hns := freshFirsts_not_stored rest _ q hq
          rw [hcid] at hns
          simp at hns
        · exact ih _
      · simp only [if_true]
        exact ih stored

theorem freshFirsts_of_nodup (l : List PossessionIn) :
    ∀ stored : String → Bool, ((l.map (fun p => p.client_id)).Nodup) →
      freshFirsts stored l = l.filter (fun p => !stored p.client_id) := by
  induction l with
  | nil => intro _ _; rfl
  | cons p rest ih =>
      intro stored h
      simp only [List.map_cons, List.nodup_cons] at h
      obtain ⟨h1, h2⟩ := h
      rw [freshFirsts, List.filter_cons]
      cases hp : stored p.client_id
      · simp only [Bool.false_eq_true, if_false, Bool.not_false, if_true]
        have hcongr : rest.filter
              (fun q => !(stored q.client_id || q.client_id == p.client_id)) =
            rest.filter (fun q => !stored q.client_id) := by
          apply List.filter_congr
          intro q hq
          have : q.client_id ≠ p.client_id := by
            intro he
            exact h1 (List.mem_map.mpr ⟨q, hq, he⟩)
          simp [this]
        rw [ih _ h2, hcongr]
      · simp only [if_true, Bool.not_true, Bool.false_eq_true, if_false]
        exact ih stored h2

theorem mem_freshFirsts_cids (l : List PossessionIn) :
    ∀ (stored : String → Bool) (p : PossessionIn), p ∈ l →
      stored p.client_id = false →
      p.client_id ∈ (freshFirsts stored l).map (fun q => q.client_id) := by
  induction l with
  | nil => intro _ p hp _; cases hp
  | cons q rest ih =>
      intro stored p hp hfresh
      rw [freshFirsts]
      cases hq : stored q.client_id
      · simp only [Bool.false_eq_true, if_false, List.map_cons,
          List.mem_cons]
        by_cases hcid : p.client_id = q.client_id
        · exact Or.inl hcid
        · rcases List.mem_cons.mp hp with h | h
          · exact absurd (congrArg (fun r => r.client_id) h) hcid
          · have hfresh2 : (fun c => stored c || c == q.client_id)
                p.client_id = false := by
              simp [hfresh, hcid]
            exact Or.inr (ih _ p h hfresh2)
      · simp only [if_true]
        rcases List.mem_cons.mp hp with h | h
        · rw [h] at hfresh
          rw [hfresh] at hq
          cases hq
        · exact ih stored p h hfresh

theorem insertLoop_spec (gid : Nat) (ps : List PossessionIn) :
    ∀ (db : DB) (n : Nat),
      ∃ rows : List PossessionRow,
        (insertLoop gid db n ps).1.games = db.games ∧
        (insertLoop gid db n ps).1.possessions = db.possessions ++ rows ∧
        (insertLoop gid db n ps).2 = n + rows.length ∧
        rows.map possessionData =
          (freshFirsts (possessionClientIdStored db) ps).map
            (fun p => inputData p gid) := by
  induction ps with
  | nil =>
      intro db n
      exact ⟨[], rfl, by simp [insertLoop], by simp [insertLoop],
        by simp [freshFirsts]⟩
  | cons p rest ih =>
      intro db n
      cases hp : possessionClientIdStored db p.client_id
      · -- the head is fresh and gets inserted
        have hins := insertOrIgnorePossession_of_fresh p gid db hp
        obtain ⟨rows', hg, hposs, hcount, hdata⟩ :=
          ih (insertOrIgnorePossession p gid db).1 (n + 1)
        have hstep : insertLoop gid db n (p :: rest) =
            insertLoop gid (insertOrIgnorePossession p gid db).1 (n + 1)
              rest := by
          rw [insertLoop]
          rw [hins]
          rfl
        refine ⟨{ id := db.next_possession_id, client_id := p.client_id,
                  game_id := gid, number := p.number, quarter := p.quarter,
                  paint_touch := p.paint_touch, outcome := p.outcome,
                  points := p.points, notes := p.notes,
                  timestamp := p.timestamp } :: rows', ?_, ?_, ?_, ?_⟩
        · rw [hstep, hg, hins]
        · rw [hstep, hposs, hins]
          simp
        · rw [hstep, hcount]
          simp only [List.length_cons]
          omega
        · rw [List.map_cons]
          rw [freshFirsts, hp]
          simp only [Bool.false_eq_true, if_false, List.map_cons]
          refine congrArg₂ List.cons rfl ?_
          rw [hdata]
          refine congrArg (List.map (fun q => inputData q gid)) ?_
          exact freshFirsts_congr (stored_after_insert p gid db hp) rest
      · -- the head's client id is already stored and is skipped
        have hins := insertOrIgnorePossession_of_stored p gid db hp
        have hstep : insertLoop gid db n (p :: rest) =
            insertLoop gid db n rest := by
          rw [insertLoop]
          rw [hins]
          rfl
        obtain ⟨rows', hg, hposs, hcount, hdata⟩ := ih db n
        refine ⟨rows', ?_, ?_, ?_, ?_⟩
        · rw [hstep, hg]
        · rw [hstep, hposs]
        · rw [hstep, hcount]
        · rw [hdata, freshFirsts, hp]
          simp only [if_true]

theorem insertLoop_of_all_stored (gid : Nat) (ps : List PossessionIn) :
    ∀ (db : DB) (n : Nat),
      (∀ p ∈ ps, possessionClientIdStored db p.client_id = true) →
      insertLoop gid db n ps = (db, n) := by
  induction ps with
  | nil => intro db n _; rfl
  | cons p rest ih =>
      intro db n h
      have hp := h p (List.mem_cons_self p rest)
      have hins := insertOrIgnorePossession_of_stored p gid db hp
      have hstep : insertLoop gid db n (p :: rest) =
          insertLoop gid db n rest := by
        rw [insertLoop]
        rw [hins]
        rfl
      rw [hstep]
      exact ih db n (fun q hq => h q (List.mem_cons_of_mem p hq))

theorem add_possessions_eq_loop (gid : Nat) (ps : List PossessionIn)
    (db : DB) (hne : ps ≠ [])
    (hg : db.games.any (fun g => g.id == gid) = true) :
    add_possessions gid ps db =
      ((insertLoop gid db 0 ps).1, .ok (insertLoop gid db 0 ps).2) := by
  cases ps with
  | nil => exact absurd rfl hne
  | cons p rest =>
      unfold add_possessions
      rw [hg]
      rfl

theorem insertLoop_stores_all (gid : Nat) (ps : List PossessionIn) (db : DB)
    (n : Nat) :
    ∀ p ∈ ps,
      possessionClientIdStored (insertLoop gid db n ps).1 p.client_id =
        true := by
  obtain ⟨rows, _, hposs, _, hdata⟩ := insertLoop_spec gid ps db n
  have hcids : rows.map (fun r => r.client_id) =
      (freshFirsts (possessionClientIdStored db) ps).map
        (fun p => p.client_id) := by
    have h := congrArg (List.map (fun d :
      String × Nat × Int × Int × Bool × String × Option Int ×
        Option String × String => d.1)) hdata
    simpa [List.map_map, Function.comp, possessionData, inputData] using h
  intro p hp
  rw [possessionClientIdStored_append db (insertLoop gid db n ps).1 rows
    hposs p.client_id]
  cases hstored : possessionClientIdStored db p.client_id
  · have hmem : p.client_id ∈
        (freshFirsts (possessionClientIdStored db) ps).map
          (fun q => q.client_id) :=
      mem_freshFirsts_cids ps (possessionClientIdStored db) p hp hstored
    rw [← hcids] at hmem
    rcases List.mem_map.mp hmem with ⟨r, hr, hrcid⟩
    have : rows.any (fun r => r.client_id == p.client_id) = true := by
      rw [List.any_eq_true]
      exact ⟨r, hr, by simp [hrcid]⟩
    rw [this]
    simp
  · simp

/-- Witness for C1: the spec's game payload on a fresh store. -/
theorem create_game_idempotent_witness :
    (∀ g ∈ emptyDB.games, g.client_id ≠ g1.client_id) ∧
    (∃ db' : DB,
      create_game g1 0 emptyDB = (db', .ok (emptyDB.next_game_id, true)) ∧
      create_game g1 1 db' = (db', .ok (emptyDB.next_game_id, false)) ∧
      db'.games = emptyDB.games ++
        [{ id := emptyDB.next_game_id, client_id := g1.client_id,
           name := g1.name, opponent := g1.opponent,
           game_date := g1.game_date, created_at := 0 }]) :=
  ⟨by decide, create_game_idempotent g1 0 1 emptyDB (by decide)⟩

/-- C2: with the game present, the first call inserts the entries whose
client id was not yet stored at the moment the loop processes them
(`freshFirsts`, so a client id repeated within the call is counted once)
and returns their number N; immediately repeating the identical call
returns inserted = 0 and leaves the store unchanged. -/
theorem add_possessions_idempotent (gid : Nat) (ps : List PossessionIn)
    (db : DB) (hg : db.games.any (fun g => g.id == gid) = true) :
    ∃ db' : DB,
      add_possessions gid ps db =
        (db', .ok (freshFirsts (possessionClientIdStored db) ps).length) ∧
      add_possessions gid ps db' = (db', .ok 0) := by
  cases hps : ps with
  | nil => exact ⟨db, rfl, rfl⟩
  | cons p rest =>
      rw [← hps]
      have hne : ps ≠ [] := by rw [hps]; simp
      obtain ⟨rows, hgm, hposs, hcount, hdata⟩ := insertLoop_spec gid ps db 0
      have hlen : rows.length =
          (freshFirsts (possessionClientIdStored db) ps).length := by
        have h := congrArg List.length hdata
        simpa using h
      refine ⟨(insertLoop gid db 0 ps).1, ?_, ?_⟩
      · rw [add_possessions_eq_loop gid ps db hne hg, hcount, hlen]
        simp
      · have hg' : (insertLoop gid db 0 ps).1.games.any
            (fun g => g.id == gid) = true := by
          rw [hgm]; exact hg
        rw [add_possessions_eq_loop gid ps (insertLoop gid db 0 ps).1 hne hg']
        rw [insertLoop_of_all_stored gid ps (insertLoop gid db 0 ps).1 0
          (insertLoop_stores_all gid ps db 0)]

/-- Witness for C2: one new possession against the one-game store, then the
identical call again. -/
theorem add_possessions_idempotent_witness :
    (dbOneGame.games.any (fun g => g.id == 1) = true) ∧
    ((freshFirsts (possessionClientIdStored dbOneGame) [p1]).length = 1) ∧
    (∃ db' : DB,
      add_possessions 1 [p1] dbOneGame =
        (db', .ok (freshFirsts (possessionClientIdStored dbOneGame)
          [p1]).length) ∧
      add_possessions 1 [p1] db' = (db', .ok 0)) :=
  ⟨by decide, by decide,
    add_possessions_idempotent 1 [p1] dbOneGame (by decide)⟩

/-- C3 counterexample: game 1 does not exist in the empty store, yet
add_possessions on the empty input list succeeds with inserted = 0 instead
of failing with NotFound — the emptiness early return precedes the
existence check. -/
theorem add_possessions_notFound_counterexample :
    emptyDB.games = [] ∧
    add_possessions 1 [] emptyDB = (emptyDB, .ok 0) :=
  ⟨rfl, rfl⟩

/-- C3 (amended): against a game_id with no stored game, for every
NON-EMPTY input list, add_possessions fails with the 404 Game not found
error and returns the store unchanged: nothing is inserted. -/
theorem add_possessions_notFound (gid : Nat) (ps : List PossessionIn)
    (db : DB) (hne : ps ≠ []) (hg : ∀ g ∈ db.games, g.id ≠ gid) :
    add_possessions gid ps db =
      (db, .error (.notFound "Game not found")) := by
  cases ps with
  | nil => exact absurd rfl hne
  | cons p rest =>
      have hany : db.games.any (fun g => g.id == gid) = false := by
        simp only [List.any_eq_false, beq_iff_eq]
        exact hg
      unfold add_possessions
      rw [hany]
      rfl

/-- Witness for C3: a nonempty list against a store with no game 7. -/
theorem add_possessions_notFound_witness :
    ([p1] ≠ ([] : List PossessionIn)) ∧
    (∀ g ∈ emptyDB.games, g.id ≠ 7) ∧
    add_possessions 7 [p1] emptyDB =
      (emptyDB, .error (.notFound "Game not found")) :=
  ⟨by decide, by decide,
    add_possessions_notFound 7 [p1] emptyDB (by decide) (by decide)⟩

/-- C4: with the game present and an input list of pairwise distinct client
ids partially overlapping the stored possessions, add_possessions appends
exactly the entries whose client id is new, silently skips the already
present ones, and returns the number of appended rows. -/
theorem add_possessions_partial_overlap (gid : Nat) (ps : List PossessionIn)
    (db : DB) (hg : db.games.any (fun g => g.id == gid) = true)
    (hnd : (ps.map (fun p => p.client_id)).Nodup) :
    ∃ (db' : DB) (rows : List PossessionRow),
      add_possessions gid ps db =
        (db', .ok (ps.filter
          (fun p => !possessionClientIdStored db p.client_id)).length) ∧
      db'.games = db.games ∧
      db'.possessions = db.possessions ++ rows ∧
      rows.map possessionData =
        (ps.filter (fun p => !possessionClientIdStored db p.client_id)).map
          (fun p => inputData p gid) := by
  cases hps : ps with
  | nil => exact ⟨db, [], rfl, rfl, by simp, by simp⟩
  | cons p rest =>
      rw [← hps]
      have hne : ps ≠ [] := by rw [hps]; simp
      obtain ⟨rows, hgm, hposs, hcount, hdata⟩ := insertLoop_spec gid ps db 0
      have hff := freshFirsts_of_nodup ps (possessionClientIdStored db) hnd
      rw [hff] at hdata
      have hlen : rows.length = (ps.filter
          (fun p => !possessionClientIdStored db p.client_id)).length := by
        have h := congrArg List.length hdata
        simpa using h
      refine ⟨(insertLoop gid db 0 ps).1, rows, ?_, hgm, hposs, hdata⟩
      rw [add_possessions_eq_loop gid ps db hne hg, hcount, hlen]
      simp

/-- Witness for C4: the spec's partial-overlap scenario — A and B already
stored, submitting A, B, C inserts exactly one row (C). -/
theorem add_possessions_partial_overlap_witness :
    (dbAB.games.any (fun g => g.id == 1) = true) ∧
    (([pA, pB, pC].map (fun p => p.client_id)).Nodup) ∧
    (([pA, pB, pC].filter
        (fun p => !possessionClientIdStored dbAB p.client_id)).length = 1) ∧
    (∃ (db' : DB) (rows : List PossessionRow),
      add_possessions 1 [pA, pB, pC] dbAB =
        (db', .ok (([pA, pB, pC].filter
          (fun p => !possessionClientIdStored dbAB p.client_id)).length)) ∧
      db'.games = dbAB.games ∧
      db'.possessions = dbAB.possessions ++ rows ∧
      rows.map possessionData =
        ([pA, pB, pC].filter
          (fun p => !possessionClientIdStored dbAB p.client_id)).map
          (fun p => inputData p 1)) :=
  ⟨by decide, by decide, by decide,
    add_possessions_partial_overlap 1 [pA, pB, pC] dbAB (by decide)
      (by decide)⟩

/-- C5: for an existing game, export_csv yields exactly the literal header
row followed by one rendered row per stored possession of that game,
ordered by sequence number ascending, with paint_touch rendered yes/no,
points rendered empty when NULL and notes rendered empty when NULL, plus
the suggested filename. -/
theorem export_csv_format (db : DB) (gid : Nat) (g : GameRow)
    (hg : db.games.find? (fun x => x.id == gid) = some g) :
    ∃ ps : List PossessionRow,
      export_csv gid db =
        .ok (["possession_number", "quarter", "paint_touch", "points",
              "outcome", "notes", "timestamp"] :: ps.map renderPossessionRow,
          (g.name.replace " " "_") ++ "_" ++ g.game_date ++ ".csv") ∧
      String.intercalate ","
          ["possession_number", "quarter", "paint_touch", "points",
           "outcome", "notes", "timestamp"] =
        "possession_number,quarter,paint_touch,points,outcome,notes,timestamp" ∧
      List.Perm ps (db.possessions.filter (fun p => p.game_id == gid)) ∧
      List.Sorted (fun a b => a.number ≤ b.number) ps ∧
      ∀ p : PossessionRow,
        renderPossessionRow p =
          [toString p.number, toString p.quarter,
           if p.paint_touch then "yes" else "no",
           (match p.points with | some n => toString n | none => ""),
           p.outcome,
           (match p.notes with | some s => s | none => ""),
           p.timestamp] := by
  refine ⟨List.insertionSort (fun a b => a.number ≤ b.number)
    (db.possessions.filter (fun p => p.game_id == gid)), ?_, rfl, ?_, ?_, ?_⟩
  · unfold export_csv
    rw [hg]
    rfl
  · exact List.perm_insertionSort _ _
  · exact List.sorted_insertionSort _ _
  · intro p
    rfl

/-- Witness for C5: a store whose two possessions of game 1 were inserted
out of sequence order. -/
theorem export_csv_format_witness :
    (dbCsv.games.find? (fun x => x.id == 1) = some gRow1) ∧
    (∃ ps : List PossessionRow,
      export_csv 1 dbCsv =
        .ok (["possession_number", "quarter", "paint_touch", "points",
              "outcome", "notes", "timestamp"] :: ps.map renderPossessionRow,
          (gRow1.name.replace " " "_") ++ "_" ++ gRow1.game_date ++ ".csv") ∧
      String.intercalate ","
          ["possession_number", "quarter", "paint_touch", "points",
           "outcome", "notes", "timestamp"] =
        "possession_number,quarter,paint_touch,points,outcome,notes,timestamp" ∧
      List.Perm ps (dbCsv.possessions.filter (fun p => p.game_id == 1)) ∧
      List.Sorted (fun a b => a.number ≤ b.number) ps ∧
      ∀ p : PossessionRow,
        renderPossessionRow p =
          [toString p.number, toString p.quarter,
           if p.paint_touch then "yes" else "no",
           (match p.points with | some n => toString n | none => ""),
           p.outcome,
           (match p.notes with | some s => s | none => ""),
           p.timestamp]) :=
  ⟨by decide, export_csv_format dbCsv 1 gRow1 (by decide)⟩

/-- C6: list_games returns every stored game (a permutation of the games
table) ordered by its server-assigned creation timestamp descending. -/
theorem list_games_sorted_desc (db : DB) :
    List.Perm (list_games db) db.games ∧
    List.Sorted (fun a b => b.created_at ≤ a.created_at) (list_games db) :=
  ⟨List.perm_insertionSort _ _, List.sorted_insertionSort _ _⟩

/-- C7: sync composes create_game and then add_possessions on the returned
game id; on a fresh store the spec's concrete payload returns created =
true and inserted_possessions = 1, and repeating the identical call
returns the same game id with created = false and inserted_possessions =
0, leaving the store unchanged. -/
theorem sync_composes :
    (∀ (payload : SyncPayload) (now : Nat) (db db1 db2 : DB) (gid : Nat)
        (created : Bool) (n : Nat),
        create_game payload.game now db = (db1, .ok (gid, created)) →
        add_possessions gid payload.possessions db1 = (db2, .ok n) →
        sync payload now db = (db2, .ok (gid, created, n))) ∧
    (∀ now now2 : Nat, ∃ db1 : DB,
        sync syncPayload1 now emptyDB = (db1, .ok (1, true, 1)) ∧
        sync syncPayload1 now2 db1 = (db1, .ok (1, false, 0))) := by
  constructor
  · intro payload now db db1 db2 gid created n h1 h2
    unfold sync
    rw [h1]
    simp only [h2]
  · intro now now2
    exact ⟨dbScenario now, rfl, rfl⟩

/-- Witness for C7: the composition at the spec's concrete payload. -/
theorem sync_composes_witness :
    sync syncPayload1 0 emptyDB = (dbSyncFull, .ok (1, true, 1)) :=
  sync_composes.1 syncPayload1 0 emptyDB dbSyncGame dbSyncFull 1 true 1
    rfl rfl

/-- C8: sync is not atomic across its two steps: on an execution where the
possession-insert step fails after the game upsert has committed, the error
propagates but the newly created game row remains in the returned store
rather than being rolled back. -/
theorem sync_not_atomic (payload : SyncPayload) (now : Nat) (db : DB)
    (h : ∀ g ∈ db.games, g.client_id ≠ payload.game.client_id) :
    ∃ db1 : DB,
      create_game payload.game now db = (db1, .ok (db.next_game_id, true)) ∧
      sync_engine_failure payload now db = (db1, .error .storageError) ∧
      ∃ g ∈ db1.games, g.client_id = payload.game.client_id := by
  have hfind := games_find?_eq_none db payload.game.client_id h
  have hstored := gameClientIdStored_eq_false db payload.game.client_id h
  have h1 : create_game payload.game now db =
      ({ db with
           games := db.games ++ [appendedGameRow payload.game now db],
           next_game_id := db.next_game_id + 1 },
       .ok (db.next_game_id, true)) := by
    unfold create_game create_game_conn insertGameRow appendedGameRow
    rw [hfind, hstored]
    rfl
  refine ⟨_, h1, ?_, ?_⟩
  · unfold sync_engine_failure
    rw [h1]
    rfl
  · exact ⟨appendedGameRow payload.game now db, by simp, rfl⟩

/-- Witness for C8: the scenario payload on a fresh store. -/
theorem sync_not_atomic_witness :
    (∀ g ∈ emptyDB.games, g.client_id ≠ syncPayload1.game.client_id) ∧
    (∃ db1 : DB,
      create_game syncPayload1.game 0 emptyDB =
        (db1, .ok (emptyDB.next_game_id, true)) ∧
      sync_engine_failure syncPayload1 0 emptyDB =
        (db1, .error .storageError) ∧
      ∃ g ∈ db1.games, g.client_id = syncPayload1.game.client_id) :=
  ⟨by decide, sync_not_atomic syncPayload1 0 emptyDB (by decide)⟩

/-- C9 counterexample: two syncs race on client id g1.  The second
request's SELECT ran against the store before the first request committed
(emptyDB) and missed; its INSERT runs against the store after that commit
(dbOneGame, which already holds g1) and is rejected by the UNIQUE
constraint.  create_game surfaces the uncaught IntegrityError instead of
returning the existing id with created = false, contradicting the claim
that the rejection is never surfaced as an error. -/
theorem create_game_race_counterexample :
    create_game_conn g1 0 emptyDB dbOneGame =
      (dbOneGame, .error .integrityError) := rfl

/-- C9 (amended): the store's constraint rejection is recovered only on the
possessions path — with the game present, add_possessions never surfaces an
error, duplicates are silently skipped by INSERT OR IGNORE.  On the games
path, when the lookup misses but a conflicting row is committed before the
INSERT runs, create_game surfaces the IntegrityError unhandled instead of
returning the existing id with created = false. -/
theorem constraint_rejection_handling :
    (∀ (gid : Nat) (ps : List PossessionIn) (db : DB),
        db.games.any (fun g => g.id == gid) = true →
        ∃ (db' : DB) (n : Nat), add_possessions gid ps db = (db', .ok n)) ∧
    (∀ (game : GameIn) (now : Nat) (dbSelect dbInsert : DB),
        dbSelect.games.find? (fun g => g.client_id == game.client_id) =
          none →
        gameClientIdStored dbInsert game.client_id = true →
        create_game_conn game now dbSelect dbInsert =
          (dbInsert, .error .integrityError)) := by
  constructor
  · intro gid ps db hg
    cases ps with
    | nil => exact ⟨db, 0, rfl⟩
    | cons p rest =>
        refine ⟨(insertLoop gid db 0 (p :: rest)).1,
          (insertLoop gid db 0 (p :: rest)).2, ?_⟩
        unfold add_possessions
        rw [hg]
        rfl
  · intro game now dbSelect dbInsert hfind hstored
    unfold create_game_conn insertGameRow
    rw [hfind, hstored]
    rfl

/-- Witness for C9 (amended): a duplicate possession against the store
that already holds it, and the racing game insert of the counterexample
input. -/
theorem constraint_rejection_handling_witness :
    (∃ (db' : DB) (n : Nat),
        add_possessions 1 [pA] dbAB = (db', .ok n)) ∧
    create_game_conn g1 0 emptyDB dbOneGame =
      (dbOneGame, .error .integrityError) :=
  ⟨constraint_rejection_handling.1 1 [pA] dbAB (by decide),
    constraint_rejection_handling.2 g1 0 emptyDB dbOneGame (by decide)
      (by decide)⟩

/-- C10: with the game present, a call whose input list repeats a client id
never errors; the loop appends exactly the first occurrence of each
not-yet-stored client id (freshFirsts) and counts them, and later
duplicates within the same call are silently skipped: no client id is
appended twice. -/
theorem add_possessions_duplicates_within_call (gid : Nat)
    (ps : List PossessionIn) (db : DB)
    (hg : db.games.any (fun g => g.id == gid) = true) :
    ∃ (db' : DB) (rows : List PossessionRow),
      add_possessions gid ps db =
        (db', .ok (freshFirsts (possessionClientIdStored db) ps).length) ∧
      db'.possessions = db.possessions ++ rows ∧
      rows.map possessionData =
        (freshFirsts (possessionClientIdStored db) ps).map
          (fun p => inputData p gid) ∧
      ((freshFirsts (possessionClientIdStored db) ps).map
        (fun p => p.client_id)).Nodup := by
  cases hps : ps with
  | nil =>
      exact ⟨db, [], rfl, by simp, by simp [freshFirsts], by
        simp [freshFirsts]⟩
  | cons p rest =>
      rw [← hps]
      have hne : ps ≠ [] := by rw [hps]; simp
      obtain ⟨rows, _, hposs, hcount, hdata⟩ := insertLoop_spec gid ps db 0
      have hlen : rows.length =
          (freshFirsts (possessionClientIdStored db) ps).length := by
        have h := congrArg List.length hdata
        simpa using h
      refine ⟨(insertLoop gid db 0 ps).1, rows, ?_, hposs, hdata,
        freshFirsts_cids_nodup ps (possessionClientIdStored db)⟩
      rw [add_possessions_eq_loop gid ps db hne hg, hcount, hlen]
      simp

/-- Witness for C10: two entries sharing the client id dup, none stored:
only the first is inserted and counted. -/
theorem add_possessions_duplicates_within_call_witness :
    (dbOneGame.games.any (fun g => g.id == 1) = true) ∧
    (freshFirsts (possessionClientIdStored dbOneGame) [pDup1, pDup2] =
      [pDup1]) ∧
    (∃ (db' : DB) (rows : List PossessionRow),
      add_possessions 1 [pDup1, pDup2] dbOneGame =
        (db', .ok (freshFirsts (possessionClientIdStored dbOneGame)
          [pDup1, pDup2]).length) ∧
      db'.possessions = dbOneGame.possessions ++ rows ∧
      rows.map possessionData =
        (freshFirsts (possessionClientIdStored dbOneGame)
          [pDup1, pDup2]).map (fun p => inputData p 1) ∧
      ((freshFirsts (possessionClientIdStored dbOneGame)
        [pDup1, pDup2]).map (fun p => p.client_id)).Nodup) :=
  ⟨by decide, by decide,
    add_possessions_duplicates_within_call 1 [pDup1, pDup2] dbOneGame
      (by decide)⟩
